import Mathlib

/-!
Verification development for the SolGuard attestation-and-reclamation
pipeline.  The TypeScript sources (canonicalizer, state hasher, indexer,
policy engine, reclaimer, attestation service, database singleton) are
shallowly embedded as executable Lean definitions, and the specified
properties are settled against them.

Machine integers are modelled as `Nat`/`Int` with explicit reduction
modulo `2 ^ 32` where the source performs 32-bit arithmetic (SHA-256).
Bytes are `Nat` values below 256, byte strings are `List Nat`.
-/

set_option maxRecDepth 4000

/-! ## SHA-256 (Node `crypto.createHash('sha256')`)

A complete executable SHA-256 over byte lists, needed because the state
hasher and the attestor feed concrete byte strings into the hash and the
claims compare concrete digests. -/

namespace SHA256

/-- 2^32, the modulus of 32-bit words. -/
def M32 : Nat := 4294967296

/-- Right rotation of a 32-bit word. -/
def rotr (n x : Nat) : Nat := ((x >>> n) ||| (x <<< (32 - n))) % M32

/-- Logical right shift. -/
def shr (n x : Nat) : Nat := x >>> n

def bsig0 (x : Nat) : Nat := (rotr 2 x) ^^^ (rotr 13 x) ^^^ (rotr 22 x)

def bsig1 (x : Nat) : Nat := (rotr 6 x) ^^^ (rotr 11 x) ^^^ (rotr 25 x)

def ssig0 (x : Nat) : Nat := (rotr 7 x) ^^^ (rotr 18 x) ^^^ (shr 3 x)

def ssig1 (x : Nat) : Nat := (rotr 17 x) ^^^ (rotr 19 x) ^^^ (shr 10 x)

/-- Choice function; `¬x` is xor against the 32-bit all-ones mask. -/
def ch (x y z : Nat) : Nat := (x &&& y) ^^^ ((x ^^^ 4294967295) &&& z)

def maj (x y z : Nat) : Nat := (x &&& y) ^^^ (x &&& z) ^^^ (y &&& z)

/-- The 64 round constants of FIPS 180-4, written in decimal. -/
def K : List Nat :=
  [1116352408, 1899447441, 3049323471, 3921009573, 961987163,
   1508970993, 2453635748, 2870763221, 3624381080, 310598401,
   607225278, 1426881987, 1925078388, 2162078206, 2614888103,
   3248222580, 3835390401, 4022224774, 264347078, 604807628,
   770255983, 1249150122, 1555081692, 1996064986, 2554220882,
   2821834349, 2952996808, 3210313671, 3336571891, 3584528711,
   113926993, 338241895, 666307205, 773529912, 1294757372,
   1396182291, 1695183700, 1986661051, 2177026350, 2456956037,
   2730485921, 2820302411, 3259730800, 3345764771, 3516065817,
   3600352804, 4094571909, 275423344, 430227734, 506948616,
   659060556, 883997877, 958139571, 1322822218, 1537002063,
   1747873779, 1955562222, 2024104815, 2227730452, 2361852424,
   2428436474, 2756734187, 3204031479, 3329325298]

/-- The eight initial hash values of FIPS 180-4, written in decimal. -/
def initH : List Nat :=
  [1779033703, 3144134277, 1013904242, 2773480762,
   1359893119, 2600822924, 528734635, 1541459225]

/-- Message-schedule extension; `acc` holds the schedule words newest first. -/
def extendW : Nat → List Nat → List Nat
  | 0, acc => acc
  | n + 1, acc =>
      let wt := (ssig1 (acc.getD 1 0) + acc.getD 6 0 +
                 ssig0 (acc.getD 14 0) + acc.getD 15 0) % M32
      extendW n (wt :: acc)

/-- One pass of the 64 compression rounds over the state `[a,b,c,d,e,f,g,h]`. -/
def compress (st : List Nat) (kw : List (Nat × Nat)) : List Nat :=
  match kw with
  | [] => st
  | (k, w) :: rest =>
    match st with
    | [a, b, c, d, e, f, g, h] =>
      let t1 := (h + bsig1 e + ch e f g + k + w) % M32
      let t2 := (bsig0 a + maj a b c) % M32
      compress [(t1 + t2) % M32, a, b, c, (d + t1) % M32, e, f, g] rest
    | _ => st

/-- Big-endian byte rendering of `v` on `n` bytes. -/
def beBytes : Nat → Nat → List Nat
  | 0, _ => []
  | n + 1, v => beBytes n (v / 256) ++ [v % 256]

/-- SHA-256 padding: append `0x80`, zero bytes, and the 64-bit bit length. -/
def padMessage (msg : List Nat) : List Nat :=
  let L := msg.length
  let zeros := (64 - ((L + 9) % 64)) % 64
  msg ++ [0x80] ++ List.replicate zeros 0 ++ beBytes 8 (L * 8)

/-- Group bytes into big-endian 32-bit words. -/
def toWords : List Nat → List Nat
  | b0 :: b1 :: b2 :: b3 :: rest =>
      (b0 * 16777216 + b1 * 65536 + b2 * 256 + b3) :: toWords rest
  | _ => []

/-- Group words into 16-word blocks.  Padded input always has a multiple of
16 words, so the final wildcard (incomplete block dropped) is unreachable. -/
def toBlocks : List Nat → List (List Nat)
  | w0 :: w1 :: w2 :: w3 :: w4 :: w5 :: w6 :: w7 ::
    w8 :: w9 :: w10 :: w11 :: w12 :: w13 :: w14 :: w15 :: rest =>
      [w0, w1, w2, w3, w4, w5, w6, w7, w8, w9, w10, w11, w12, w13, w14, w15] ::
        toBlocks rest
  | _ => []

/-- Process one 512-bit block into the running hash state. -/
def processBlock (hs block : List Nat) : List Nat :=
  let w := (extendW 48 block.reverse).reverse
  let st := compress hs (K.zip w)
  (hs.zip st).map (fun p => (p.1 + p.2) % M32)

/-- SHA-256 of a byte list, as a 32-byte list. -/
def sha256 (msg : List Nat) : List Nat :=
  (((toBlocks (toWords (padMessage msg))).foldl processBlock initH).map
    (beBytes 4)).flatten

end SHA256

export SHA256 (sha256)

/-! ## Byte-level encodings shared by the pipeline -/

/-- UTF-8 encoding of one character. -/
def encodeCharUtf8 (c : Char) : List Nat :=
  let n := c.toNat
  if n < 128 then [n]
  else if n < 2048 then [192 + n / 64, 128 + n % 64]
  else if n < 65536 then [224 + n / 4096, 128 + (n / 64) % 64, 128 + n % 64]
  else [240 + n / 262144, 128 + (n / 4096) % 64, 128 + (n / 64) % 64, 128 + n % 64]

/-- UTF-8 encoding of a string (Node's `hash.update(string)` semantics). -/
def utf8Bytes (s : String) : List Nat := (s.data.map encodeCharUtf8).flatten

/-- The lowercase hex digit for a value below 16 (codes 48-57, 97-102). -/
def hexDigit (n : Nat) : Char :=
  Char.ofNat (if n < 10 then 48 + n else 87 + n)

/-- Two-character lowercase hex rendering of one byte. -/
def byteToHex (b : Nat) : String :=
  String.mk [hexDigit (b / 16 % 16), hexDigit (b % 16)]

/-- Lowercase-hex rendering of a byte list (Node's `digest('hex')`). -/
def toHex (bs : List Nat) : String := String.join (bs.map byteToHex)

example : toHex (sha256 (utf8Bytes "abc")) =
    "ba7816bf8f01cfea414140de5dae2223b00361a396177a9cb410ff61f20015ad" := by
  decide

example : toHex (sha256 []) =
    "e3b0c44298fc1c149afbf4c8996fb92427ae41e4649b934ca495991b7852b855" := by
  decide

/-! ## String comparison

JavaScript's default `Array.prototype.sort` compares strings by their
UTF-16 code-unit sequences; on the code-point values this is plain
lexicographic comparison for the basic plane.  Core `String.lt` is not
kernel-computable (its `ltb` loop is well-founded), so we embed the
comparison structurally over the character lists. -/

/-- Lexicographic less-or-equal on character lists by code point. -/
def charsLe : List Char → List Char → Bool
  | [], _ => true
  | _ :: _, [] => false
  | a :: as, b :: bs =>
      if a.toNat < b.toNat then true
      else if b.toNat < a.toNat then false
      else charsLe as bs

/-- Lexicographic less-or-equal on strings (JS sort order). -/
def strLe (a b : String) : Bool := charsLe a.data b.data

theorem charsLe_total : ∀ as bs, charsLe as bs = true ∨ charsLe bs as = true
  | [], _ => Or.inl rfl
  | _ :: _, [] => Or.inr rfl
  | a :: as, b :: bs => by
    by_cases hab : a.toNat < b.toNat
    · exact Or.inl (by simp [charsLe, hab])
    · by_cases hba : b.toNat < a.toNat
      · exact Or.inr (by simp [charsLe, hba, hab])
      · rcases charsLe_total as bs with h | h
        · exact Or.inl (by simp [charsLe, hab, hba, h])
        · exact Or.inr (by simp [charsLe, hab, hba, h])

theorem charsLe_trans : ∀ as bs cs, charsLe as bs = true → charsLe bs cs = true →
    charsLe as cs = true
  | [], _, _, _, _ => rfl
  | _ :: _, [], _, h1, _ => by simp [charsLe] at h1
  | _ :: _, _ :: _, [], _, h2 => by simp [charsLe] at h2
  | a :: as, b :: bs, c :: cs, h1, h2 => by
    simp only [charsLe] at h1 h2 ⊢
    by_cases hab : a.toNat < b.toNat <;> by_cases hba : b.toNat < a.toNat <;>
      by_cases hbc : b.toNat < c.toNat <;> by_cases hcb : c.toNat < b.toNat <;>
        simp [hab, hba, hbc, hcb] at h1 h2 <;>
        first
          | rw [if_pos (show a.toNat < c.toNat by omega)]
          | (rw [if_neg (show ¬ a.toNat < c.toNat by omega),
                 if_neg (show ¬ c.toNat < a.toNat by omega)]
             exact charsLe_trans as bs cs h1 h2)

theorem charsLe_antisymm : ∀ as bs, charsLe as bs = true → charsLe bs as = true →
    as = bs
  | [], [], _, _ => rfl
  | [], _ :: _, _, h2 => by simp [charsLe] at h2
  | _ :: _, [], h1, _ => by simp [charsLe] at h1
  | a :: as, b :: bs, h1, h2 => by
    simp only [charsLe] at h1 h2
    by_cases hab : a.toNat < b.toNat <;> by_cases hba : b.toNat < a.toNat <;>
      simp [hab, hba] at h1 h2 <;>
      first
        | omega
        | (have h3 : a.toNat = b.toNat := by omega
           have hc : a = b := Char.ext (UInt32.toNat.inj h3)
           subst hc
           exact congrArg (a :: ·) (charsLe_antisymm as bs h1 h2))

theorem strLe_total (a b : String) : strLe a b = true ∨ strLe b a = true :=
  charsLe_total a.data b.data

theorem strLe_trans {a b c : String} (h1 : strLe a b = true) (h2 : strLe b c = true) :
    strLe a c = true :=
  charsLe_trans a.data b.data c.data h1 h2

theorem strLe_antisymm {a b : String} (h1 : strLe a b = true) (h2 : strLe b a = true) :
    a = b := by
  cases a; cases b
  exact congrArg String.mk (charsLe_antisymm _ _ h1 h2)

theorem strLe_refl (a : String) : strLe a a = true := by
  rcases strLe_total a a with h | h <;> exact h

/-! ## The Canonicalizer (`src/core/attestation/utils.ts`)

JSON-like structured values.  JavaScript objects carry their fields in
property order with distinct keys; we model an object as the association
list of its fields in that order.  JS numbers in the specified value
domain are integers, modelled exactly as `Int`. -/

inductive JsValue where
  | null
  | bool (b : Bool)
  | num (n : Int)
  | str (s : String)
  | arr (elems : List JsValue)
  | obj (fields : List (String × JsValue))

/-- Field comparison by key, the order used for `Object.keys(obj).sort()`. -/
def fieldLe (a b : String × JsValue) : Prop := strLe a.1 b.1 = true

instance : DecidableRel fieldLe := fun a b =>
  inferInstanceAs (Decidable (strLe a.1 b.1 = true))

/-- `fieldLe`-sorting of a JS object's fields.  `Object.keys(obj).sort()`
followed by rebuilding the object in that key order is, for distinct keys,
exactly a stable key-sort of the field list. -/
def sortFields (fs : List (String × JsValue)) : List (String × JsValue) :=
  List.insertionSort fieldLe fs

mutual

/--
`canonicalize` from `src/core/attestation/utils.ts`:

    if (Array.isArray(obj)) return obj.map(canonicalize);
    else if (typeof obj === 'object' && obj !== null)
      return Object.keys(obj).sort().reduce((acc, key) =>
        { acc[key] = canonicalize(obj[key]); return acc; }, {});
    return obj;

The source sorts the keys and then canonicalizes each looked-up value; we
canonicalize field values first and then key-sort, which builds the same
field list because the sort compares keys only and value-canonicalization
preserves keys.
-/
def canonicalize : JsValue → JsValue
  | .null => .null
  | .bool b => .bool b
  | .num n => .num n
  | .str s => .str s
  | .arr es => .arr (canonList es)
  | .obj fs => .obj (sortFields (canonFields fs))
  termination_by structural v => v

/-- `obj.map(canonicalize)` on an array's element list. -/
def canonList : List JsValue → List JsValue
  | [] => []
  | v :: vs => canonicalize v :: canonList vs
  termination_by structural vs => vs

/-- Per-field canonicalization of an object's field list. -/
def canonFields : List (String × JsValue) → List (String × JsValue)
  | [] => []
  | (k, v) :: fs => (k, canonicalize v) :: canonFields fs
  termination_by structural fs => fs

end

/-! ## JSON serialization (`JSON.stringify` on the specified value domain)

`JSON.stringify` emits object fields in property order, no whitespace,
strings escaped with the standard JSON rules. -/

/-- One character under JSON string escaping. -/
def jsonEscapeChar (c : Char) : String :=
  if c = '"' then "\\\""
  else if c = '\\' then "\\\\"
  else if c.toNat = 8 then "\\b"
  else if c.toNat = 9 then "\\t"
  else if c.toNat = 10 then "\\n"
  else if c.toNat = 12 then "\\f"
  else if c.toNat = 13 then "\\r"
  else if c.toNat < 32 then "\\u00" ++ byteToHex c.toNat
  else String.mk [c]

/-- JSON string-body escaping. -/
def jsonEscape (s : String) : String := String.join (s.data.map jsonEscapeChar)

/-- A JSON string literal. -/
def quoteStr (s : String) : String := "\"" ++ jsonEscape s ++ "\""

mutual

/-- `JSON.stringify` of a structured value.  Numbers are printed as exact
decimal integers (the specified value domain is integral). -/
def stringify : JsValue → String
  | .null => "null"
  | .bool b => cond b "true" "false"
  | .num n => toString n
  | .str s => quoteStr s
  | .arr es => "[" ++ stringifyElems es ++ "]"
  | .obj fs => "\x7b" ++ stringifyFields fs ++ "\x7d"
  termination_by structural v => v

def stringifyElems : List JsValue → String
  | [] => ""
  | [v] => stringify v
  | v :: v2 :: vs => stringify v ++ "," ++ stringifyElems (v2 :: vs)
  termination_by structural es => es

def stringifyFields : List (String × JsValue) → String
  | [] => ""
  | [(k, v)] => quoteStr k ++ ":" ++ stringify v
  | (k, v) :: f2 :: fs =>
      quoteStr k ++ ":" ++ stringify v ++ "," ++ stringifyFields (f2 :: fs)
  termination_by structural fs => fs

end

/-! ## Well-formedness and structural equivalence of values

A JavaScript object cannot carry two fields with the same key; `wfJs`
captures that invariant of the embedding.  `structEquiv` is the claim's
"same keys and values regardless of mapping insertion order". -/

/-- Key lists of JS objects have no duplicates. -/
def distinctKeys : List String → Bool
  | [] => true
  | k :: ks => (!ks.contains k) && distinctKeys ks

mutual

/-- Every object in the value has pairwise-distinct keys. -/
def wfJs : JsValue → Bool
  | .null => true
  | .bool _ => true
  | .num _ => true
  | .str _ => true
  | .arr es => wfList es
  | .obj fs => distinctKeys (fs.map Prod.fst) && wfFields fs
  termination_by structural v => v

def wfList : List JsValue → Bool
  | [] => true
  | v :: vs => wfJs v && wfList vs
  termination_by structural vs => vs

def wfFields : List (String × JsValue) → Bool
  | [] => true
  | (_, v) :: fs => wfJs v && wfFields fs
  termination_by structural fs => fs

end

/-- Find the first field with key `k`; return its value and the list with
that field removed (order of the others preserved). -/
def findRemove (k : String) : List (String × JsValue) →
    Option (JsValue × List (String × JsValue))
  | [] => none
  | (k2, w) :: gs =>
      if k2 = k then some (w, gs)
      else match findRemove k gs with
        | none => none
        | some (w2, rest) => some (w2, (k2, w) :: rest)

mutual

/-- Structural equivalence: equal atoms, pointwise-equivalent arrays, and
objects whose field multisets match up to key with equivalent values
(insertion order of mappings is ignored). -/
def structEquiv : JsValue → JsValue → Bool
  | .null, .null => true
  | .bool a, .bool b => a == b
  | .num a, .num b => a == b
  | .str a, .str b => a == b
  | .arr as, .arr bs => arrEquiv as bs
  | .obj fs, .obj gs => fieldsEquiv fs gs
  | _, _ => false
  termination_by structural v => v

def arrEquiv : List JsValue → List JsValue → Bool
  | [], [] => true
  | a :: as, b :: bs => structEquiv a b && arrEquiv as bs
  | _, _ => false
  termination_by structural as => as

def fieldsEquiv : List (String × JsValue) → List (String × JsValue) → Bool
  | [], [] => true
  | [], _ :: _ => false
  | (k, v) :: fs, gs =>
      match findRemove k gs with
      | none => false
      | some (w, rest) => structEquiv v w && fieldsEquiv fs rest
  termination_by structural fs => fs

end

/-! ## Canonicalizer lemmas -/

instance : IsTotal (String × JsValue) fieldLe :=
  ⟨fun a b => strLe_total a.1 b.1⟩

instance : IsTrans (String × JsValue) fieldLe :=
  ⟨fun _ _ _ h1 h2 => strLe_trans h1 h2⟩

theorem canonFields_eq_map (fs : List (String × JsValue)) :
    canonFields fs = fs.map (fun p => (p.1, canonicalize p.2)) := by
  induction fs with
  | nil => rfl
  | cons p fs ih => cases p; simp [canonFields, ih]

theorem keys_canonFields (fs : List (String × JsValue)) :
    (canonFields fs).map Prod.fst = fs.map Prod.fst := by
  simp [canonFields_eq_map]

theorem sortFields_perm (fs : List (String × JsValue)) :
    (sortFields fs).Perm fs :=
  List.perm_insertionSort fieldLe fs

theorem sortFields_sorted (fs : List (String × JsValue)) :
    List.Sorted fieldLe (sortFields fs) :=
  List.sorted_insertionSort fieldLe fs

theorem sortFields_idem (fs : List (String × JsValue)) :
    sortFields (sortFields fs) = sortFields fs :=
  (sortFields_sorted fs).insertionSort_eq

theorem canonFields_sortFields (fs : List (String × JsValue)) :
    canonFields (sortFields fs) = sortFields (canonFields fs) := by
  rw [canonFields_eq_map, canonFields_eq_map]
  exact List.map_insertionSort (r := fieldLe) (s := fieldLe)
    (fun p => (p.1, canonicalize p.2)) fs (fun a _ b _ => Iff.rfl)

mutual

theorem canonicalize_canonicalize :
    ∀ v, canonicalize (canonicalize v) = canonicalize v
  | .null => rfl
  | .bool _ => rfl
  | .num _ => rfl
  | .str _ => rfl
  | .arr es => by simp [canonicalize, canonList_canonList es]
  | .obj fs => by
      simp only [canonicalize]
      rw [canonFields_sortFields, canonFields_canonFields fs, sortFields_idem]

theorem canonList_canonList :
    ∀ vs, canonList (canonList vs) = canonList vs
  | [] => rfl
  | v :: vs => by
      simp [canonList, canonicalize_canonicalize v, canonList_canonList vs]

theorem canonFields_canonFields :
    ∀ fs, canonFields (canonFields fs) = canonFields fs
  | [] => rfl
  | (k, v) :: fs => by
      simp [canonFields, canonicalize_canonicalize v, canonFields_canonFields fs]

end

theorem distinctKeys_iff : ∀ ks : List String, distinctKeys ks = true ↔ ks.Nodup
  | [] => by simp [distinctKeys]
  | k :: ks => by
    simp [distinctKeys, distinctKeys_iff ks, List.contains, List.elem_iff]

theorem findRemove_perm {k : String} :
    ∀ (gs : List (String × JsValue)) (w : JsValue) (rest : List (String × JsValue)),
      findRemove k gs = some (w, rest) → gs.Perm ((k, w) :: rest)
  | [], _, _, h => by simp [findRemove] at h
  | (k2, w2) :: gs, w, rest, h => by
    simp only [findRemove] at h
    by_cases hk : k2 = k
    · subst hk
      rw [if_pos rfl] at h
      simp only [Option.some.injEq, Prod.mk.injEq] at h
      obtain ⟨rfl, rfl⟩ := h
      exact List.Perm.refl _
    · rw [if_neg hk] at h
      cases hfr : findRemove k gs with
      | none => rw [hfr] at h; exact absurd h (by simp)
      | some pr =>
        obtain ⟨w3, rest3⟩ := pr
        rw [hfr] at h
        simp only [Option.some.injEq, Prod.mk.injEq] at h
        obtain ⟨rfl, rfl⟩ := h
        have hrec : gs.Perm ((k, w3) :: rest3) := findRemove_perm gs w3 rest3 hfr
        exact (hrec.cons (k2, w2)).trans (List.Perm.swap (k, w3) (k2, w2) rest3)

theorem eq_of_perm_sorted_nodupKeys :
    ∀ l1 l2 : List (String × JsValue), l1.Perm l2 →
      List.Sorted fieldLe l1 → List.Sorted fieldLe l2 →
      (l1.map Prod.fst).Nodup → l1 = l2
  | [], l2, hp, _, _, _ => (hp.symm.eq_nil).symm
  | p :: l1, l2, hp, hs1, hs2, hnd => by
    cases l2 with
    | nil => exact absurd hp.eq_nil (by simp)
    | cons q l2 =>
      have hpmem : p ∈ q :: l2 := hp.mem_iff.mp (List.mem_cons_self p l1)
      have hqmem : q ∈ p :: l1 := hp.mem_iff.mpr (List.mem_cons_self q l2)
      have hpq : p = q := by
        rcases List.mem_cons.mp hpmem with h | h
        · exact h
        · rcases List.mem_cons.mp hqmem with h2 | h2
          · exact h2.symm
          · have ha : fieldLe p q := List.rel_of_sorted_cons hs1 q h2
            have hb : fieldLe q p := List.rel_of_sorted_cons hs2 p h
            have hk : p.1 = q.1 := strLe_antisymm ha hb
            exfalso
            have hql : q.1 ∈ l1.map Prod.fst := List.mem_map_of_mem Prod.fst h2
            rw [List.map_cons, List.nodup_cons] at hnd
            exact hnd.1 (hk ▸ hql)
      subst hpq
      have hperm : l1.Perm l2 := hp.cons_inv
      rw [List.map_cons, List.nodup_cons] at hnd
      exact congrArg (p :: ·)
        (eq_of_perm_sorted_nodupKeys l1 l2 hperm hs1.of_cons hs2.of_cons hnd.2)

mutual

theorem structEquiv_canonicalize :
    ∀ v w, wfJs v = true → structEquiv v w = true → canonicalize v = canonicalize w
  | .null, w, _, h => by
      cases w <;> simp [structEquiv] at h
      rfl
  | .bool a, w, _, h => by
      cases w <;> simp [structEquiv] at h
      rw [h]
  | .num a, w, _, h => by
      cases w <;> simp [structEquiv] at h
      rw [h]
  | .str a, w, _, h => by
      cases w <;> simp [structEquiv] at h
      rw [h]
  | .arr es, w, hw, h => by
      cases w <;> simp only [structEquiv] at h <;>
        [exact absurd h (by simp); exact absurd h (by simp);
         exact absurd h (by simp); exact absurd h (by simp); skip;
         exact absurd h (by simp)]
      case arr bs =>
        simp only [wfJs] at hw
        simp only [canonicalize]
        rw [arrEquiv_canonList es bs hw h]
  | .obj fs, w, hw, h => by
      cases w <;> simp only [structEquiv] at h <;>
        [exact absurd h (by simp); exact absurd h (by simp);
         exact absurd h (by simp); exact absurd h (by simp);
         exact absurd h (by simp); skip]
      case obj gs =>
        simp only [wfJs, Bool.and_eq_true] at hw
        have hperm := fieldsEquiv_perm fs gs hw.2 h
        simp only [canonicalize]
        have hnd : ((sortFields (canonFields fs)).map Prod.fst).Nodup := by
          refine (((sortFields_perm (canonFields fs)).map Prod.fst).nodup_iff).mpr ?h
          rw [keys_canonFields]
          exact (distinctKeys_iff _).mp hw.1
        exact congrArg JsValue.obj
          (eq_of_perm_sorted_nodupKeys _ _
            (((sortFields_perm _).trans hperm).trans (sortFields_perm _).symm)
            (sortFields_sorted _) (sortFields_sorted _) hnd)

theorem arrEquiv_canonList :
    ∀ as bs, wfList as = true → arrEquiv as bs = true → canonList as = canonList bs
  | [], bs, _, h => by
      cases bs <;> simp [arrEquiv] at h
      rfl
  | a :: as, bs, hw, h => by
      cases bs with
      | nil => simp [arrEquiv] at h
      | cons b bs =>
        simp only [arrEquiv, Bool.and_eq_true] at h
        simp only [wfList, Bool.and_eq_true] at hw
        simp only [canonList]
        rw [structEquiv_canonicalize a b hw.1 h.1, arrEquiv_canonList as bs hw.2 h.2]

theorem fieldsEquiv_perm :
    ∀ fs gs, wfFields fs = true → fieldsEquiv fs gs = true →
      (canonFields fs).Perm (canonFields gs)
  | [], gs, _, h => by
      cases gs with
      | nil => exact List.Perm.refl _
      | cons g gs => simp [fieldsEquiv] at h
  | (k, v) :: fs, gs, hw, h => by
      simp only [fieldsEquiv] at h
      cases hfr : findRemove k gs with
      | none => rw [hfr] at h; exact absurd h (by simp)
      | some pr =>
        obtain ⟨w, rest⟩ := pr
        rw [hfr] at h
        simp only [Bool.and_eq_true] at h
        simp only [wfFields, Bool.and_eq_true] at hw
        have hvw := structEquiv_canonicalize v w hw.1 h.1
        have hrec := fieldsEquiv_perm fs rest hw.2 h.2
        have hg : gs.Perm ((k, w) :: rest) := findRemove_perm gs w rest hfr
        have hcg : (canonFields gs).Perm ((k, canonicalize w) :: canonFields rest) := by
          have hm := hg.map (fun p => (p.1, canonicalize p.2))
          rw [← canonFields_eq_map, ← canonFields_eq_map] at hm
          simpa only [canonFields] using hm
        simp only [canonFields]
        rw [hvw]
        exact (hrec.cons (k, canonicalize w)).trans hcg.symm

end

/-- C4: `canonicalize` is idempotent — `canonicalize(canonicalize(v)) ==
canonicalize(v)` for every structured value — and respects structural
equivalence: two well-formed values with the same keys and values
regardless of mapping insertion order canonicalize to the same value and
hence serialize to identical bytes under `JSON.stringify`. -/
theorem C4_canonicalize_idempotent_and_order_independent :
    (∀ v, canonicalize (canonicalize v) = canonicalize v) ∧
    (∀ v1 v2, wfJs v1 = true → structEquiv v1 v2 = true →
      canonicalize v1 = canonicalize v2 ∧
      stringify (canonicalize v1) = stringify (canonicalize v2)) := by
  refine ⟨canonicalize_canonicalize, fun v1 v2 hw h => ?h⟩
  have hc := structEquiv_canonicalize v1 v2 hw h
  exact ⟨hc, congrArg stringify hc⟩

/-- Witness for C4 at a concrete pair of objects that differ only in
field insertion order. -/
theorem C4_canonicalize_idempotent_and_order_independent_witness :
    wfJs (JsValue.obj [("b", .num 1), ("a", .str "x")]) = true ∧
    structEquiv (JsValue.obj [("b", .num 1), ("a", .str "x")])
      (JsValue.obj [("a", .str "x"), ("b", .num 1)]) = true ∧
    stringify (canonicalize (JsValue.obj [("b", .num 1), ("a", .str "x")])) =
      stringify (canonicalize (JsValue.obj [("a", .str "x"), ("b", .num 1)])) :=
  ⟨by decide, by decide,
    (C4_canonicalize_idempotent_and_order_independent.2 _ _
      (by decide) (by decide)).2⟩

/-! ## Numeric leaves (for the large-integer serialization claim) -/

mutual

/-- The numeric leaves of a value, in serialization order. -/
def numLeaves : JsValue → List Int
  | .null => []
  | .bool _ => []
  | .str _ => []
  | .num n => [n]
  | .arr es => numLeavesL es
  | .obj fs => numLeavesF fs
  termination_by structural v => v

def numLeavesL : List JsValue → List Int
  | [] => []
  | v :: vs => numLeaves v ++ numLeavesL vs
  termination_by structural vs => vs

def numLeavesF : List (String × JsValue) → List Int
  | [] => []
  | (_, v) :: fs => numLeaves v ++ numLeavesF fs
  termination_by structural fs => fs

end

theorem numLeavesF_eq_flatMap (fs : List (String × JsValue)) :
    numLeavesF fs = fs.flatMap (fun p => numLeaves p.2) := by
  induction fs with
  | nil => rfl
  | cons p fs ih => cases p; simp [numLeavesF, ih]

mutual

theorem numLeaves_canonicalize :
    ∀ v, (numLeaves (canonicalize v)).Perm (numLeaves v)
  | .null => List.Perm.refl _
  | .bool _ => List.Perm.refl _
  | .num _ => List.Perm.refl _
  | .str _ => List.Perm.refl _
  | .arr es => by
      simpa only [canonicalize, numLeaves] using numLeavesL_canonList es
  | .obj fs => by
      simp only [canonicalize, numLeaves]
      have h1 : (numLeavesF (sortFields (canonFields fs))).Perm
          (numLeavesF (canonFields fs)) := by
        rw [numLeavesF_eq_flatMap, numLeavesF_eq_flatMap]
        exact (sortFields_perm (canonFields fs)).flatMap_right _
      exact h1.trans (numLeavesF_canonFields fs)

theorem numLeavesL_canonList :
    ∀ vs, (numLeavesL (canonList vs)).Perm (numLeavesL vs)
  | [] => List.Perm.refl _
  | v :: vs => by
      simp only [canonList, numLeavesL]
      exact (numLeaves_canonicalize v).append (numLeavesL_canonList vs)

theorem numLeavesF_canonFields :
    ∀ fs, (numLeavesF (canonFields fs)).Perm (numLeavesF fs)
  | [] => List.Perm.refl _
  | (k, v) :: fs => by
      simp only [canonFields, numLeavesF]
      exact (numLeaves_canonicalize v).append (numLeavesF_canonFields fs)

end

/-- C5 counterexample: `9007199254740999 = 2^53 + 7` lies outside `±2^53`,
yet the canonicalizer passes it through unchanged and it serializes as the
bare JSON numeral, not as a decimal-digit JSON string. -/
theorem C5_large_integer_not_stringified :
    (9007199254740999 : Int) > 9007199254740992 ∧
    canonicalize (JsValue.num 9007199254740999) = JsValue.num 9007199254740999 ∧
    stringify (canonicalize (JsValue.num 9007199254740999)) =
      "9007199254740999" ∧
    stringify (canonicalize (JsValue.num 9007199254740999)) ≠
      "\"9007199254740999\"" :=
  ⟨by decide, rfl, by decide, by decide⟩

/-- C5 amended: the canonicalizer has no magnitude-dependent case at all:
`canonicalize` returns every integer unchanged (it preserves the multiset
of numeric leaves of any value) and `JSON.stringify` renders a number as
the bare decimal numeral `toString n`.  The decimal-string rendering of
large lamport totals happens in `ResultBuilder.build`
(`this.totalLamports.toString()`), before canonicalization. -/
theorem C5_canonicalize_number_passthrough :
    (∀ n : Int, canonicalize (JsValue.num n) = JsValue.num n ∧
      stringify (JsValue.num n) = toString n) ∧
    (∀ v, (numLeaves (canonicalize v)).Perm (numLeaves v)) :=
  ⟨fun _ => ⟨rfl, rfl⟩, numLeaves_canonicalize⟩

/-! ## Ledger data model (schema from `src/db/database.ts`)

`DATETIME` columns are stored as text by the ledger engine and modelled as
strings; `evidence_payload` stores a JSON text, modelled as the parsed
structured value (the stored text is its serialization). -/

structure SponsoredAccount where
  account_pubkey : String
  creation_signature : String
  slot : Int
  discovered_at : String
  operator_pubkey : String
  lifecycle_state : String
  lamports : Option Int
  data_len : Option Int
  owner_program : Option String
  last_lifecycle_check : Option String
  processing_lock : Option String
  deriving Repr, DecidableEq

structure LifecycleEvent where
  id : Int
  account_pubkey : String
  old_state : String
  new_state : String
  trigger_reason : String
  evidence_payload : Option JsValue
  timestamp : String

structure Ledger where
  sponsored_accounts : List SponsoredAccount
  lifecycle_events : List LifecycleEvent

def optStr : Option String → JsValue
  | none => .null
  | some s => .str s

def optNum : Option Int → JsValue
  | none => .null
  | some n => .num n

/-- A `SELECT *` row of `sponsored_accounts` as the JS object handed to
`canonicalize` by the state hasher. -/
def accountToJs (a : SponsoredAccount) : JsValue :=
  .obj [("account_pubkey", .str a.account_pubkey),
        ("creation_signature", .str a.creation_signature),
        ("slot", .num a.slot),
        ("discovered_at", .str a.discovered_at),
        ("operator_pubkey", .str a.operator_pubkey),
        ("lifecycle_state", .str a.lifecycle_state),
        ("lamports", optNum a.lamports),
        ("data_len", optNum a.data_len),
        ("owner_program", optStr a.owner_program),
        ("last_lifecycle_check", optStr a.last_lifecycle_check),
        ("processing_lock", optStr a.processing_lock)]

/-- A `SELECT *` row of `lifecycle_events` as a JS object; the stored
`evidence_payload` column is the JSON text of the payload. -/
def eventToJs (e : LifecycleEvent) : JsValue :=
  .obj [("id", .num e.id),
        ("account_pubkey", .str e.account_pubkey),
        ("old_state", .str e.old_state),
        ("new_state", .str e.new_state),
        ("trigger_reason", .str e.trigger_reason),
        ("evidence_payload",
          match e.evidence_payload with
          | none => .null
          | some p => .str (stringify p)),
        ("timestamp", .str e.timestamp)]

/-- `ORDER BY account_pubkey ASC` (binary collation on UTF-8 text matches
code-point order). -/
def accountLe (a b : SponsoredAccount) : Prop :=
  strLe a.account_pubkey b.account_pubkey = true

instance : DecidableRel accountLe := fun a b =>
  inferInstanceAs (Decidable (strLe a.account_pubkey b.account_pubkey = true))

def sortAccounts (rows : List SponsoredAccount) : List SponsoredAccount :=
  List.insertionSort accountLe rows

/-- `ORDER BY id ASC`. -/
def eventLe (a b : LifecycleEvent) : Prop := a.id ≤ b.id

instance : DecidableRel eventLe := fun a b =>
  inferInstanceAs (Decidable (a.id ≤ b.id))

def sortEvents (rows : List LifecycleEvent) : List LifecycleEvent :=
  List.insertionSort eventLe rows

/-! ## State Hasher (`src/core/attestation/state_hash.ts`) -/

namespace StateHasher

/-- `hashTable`: the per-table digest, rendered as a lowercase-hex string.
Empty table: `SHA256(utf8(tableName + ":empty"))`.  Otherwise the table
hasher is fed the raw 32-byte row hashes
`SHA256(utf8(JSON.stringify(canonicalize(row))))` in row order. -/
def hashTable (tableName : String) (rows : List JsValue) : String :=
  if rows.isEmpty then toHex (sha256 (utf8Bytes (tableName ++ ":empty")))
  else toHex (sha256 ((rows.map (fun row =>
    sha256 (utf8Bytes (stringify (canonicalize row))))).flatten))

/-- The same per-table digest before hex rendering, as raw bytes. -/
def tableDigest (tableName : String) (rows : List JsValue) : List Nat :=
  if rows.isEmpty then sha256 (utf8Bytes (tableName ++ ":empty"))
  else sha256 ((rows.map (fun row =>
    sha256 (utf8Bytes (stringify (canonicalize row))))).flatten)

/-- `computeStateHash`: the root digest.  Node's
`createHash('sha256').update(sponsoredHash).update(lifecycleHash)` hashes
the UTF-8 bytes of the two hex strings returned by `hashTable`. -/
def computeStateHash (l : Ledger) : String :=
  let sponsoredHash := hashTable "sponsored_accounts"
    ((sortAccounts l.sponsored_accounts).map accountToJs)
  let lifecycleHash := hashTable "lifecycle_events"
    ((sortEvents l.lifecycle_events).map eventToJs)
  toHex (sha256 (utf8Bytes sponsoredHash ++ utf8Bytes lifecycleHash))

theorem hashTable_eq_hex_tableDigest (tableName : String) (rows : List JsValue) :
    hashTable tableName rows = toHex (tableDigest tableName rows) := by
  unfold hashTable tableDigest
  split <;> rfl

end StateHasher

/-- The empty ledger. -/
def emptyLedger : Ledger := ⟨[], []⟩

/-- C1 counterexample: on the empty ledger the root digest does not equal
`SHA256(H_sponsored || H_lifecycle)` with `||` the concatenation of the
raw 32-byte per-table digests — `computeStateHash` feeds Node's hasher the
two *hex strings*, so the root hashes 128 ASCII bytes, not 64 raw bytes. -/
theorem C1_root_digest_counterexample :
    StateHasher.computeStateHash emptyLedger ≠
      toHex (sha256 (sha256 (utf8Bytes "sponsored_accounts:empty") ++
        sha256 (utf8Bytes "lifecycle_events:empty"))) := by
  decide

/-- C1 (amended): `computeStateHash` returns SHA256 of the UTF-8
concatenation of the two lowercase-hex renderings of the per-table digests
(`sponsored_accounts` rows in `account_pubkey` ascending order,
`lifecycle_events` rows in `id` ascending order), and on the empty ledger
it equals `SHA256(utf8(hex(SHA256("sponsored_accounts:empty")) ++
hex(SHA256("lifecycle_events:empty"))))`. -/
theorem C1_root_digest_hex_concatenation :
    (∀ l : Ledger,
      StateHasher.computeStateHash l =
        toHex (sha256
          (utf8Bytes (toHex (StateHasher.tableDigest "sponsored_accounts"
            ((sortAccounts l.sponsored_accounts).map accountToJs))) ++
          utf8Bytes (toHex (StateHasher.tableDigest "lifecycle_events"
            ((sortEvents l.lifecycle_events).map eventToJs)))))) ∧
    StateHasher.computeStateHash emptyLedger =
      toHex (sha256
        (utf8Bytes (toHex (sha256 (utf8Bytes "sponsored_accounts:empty"))) ++
        utf8Bytes (toHex (sha256 (utf8Bytes "lifecycle_events:empty"))))) := by
  constructor
  · intro l
    simp only [StateHasher.computeStateHash, StateHasher.hashTable_eq_hex_tableDigest]
  · decide

/-! ## Policy Engine (`src/core/policy.ts`)

`evaluate` is a pure function of the ledger snapshot once the clock and
`Date` parsing are made explicit: `parseTime` models
`new Date(text).getTime()` and `now` models `new Date().getTime()`.  The
floating-point day arithmetic `diffTime / 86400000 < minAgeDays` is
modelled exactly by `diffTime < minAgeDays * 86400000` on integers. -/

def SYSTEM_PROGRAM_ID : String := "11111111111111111111111111111111"

structure PolicyConfig where
  minLamports : Option Int
  minAgeDays : Option Int
  whitelist : List String

structure PolicyDecision where
  newState : Option String
  reason : String

namespace PolicyEngine

/-- `checkEligibility`, rule for rule.  JS truthiness of the optional
numeric fields (`account.data_len && account.data_len > 0`,
`account.lamports || 0`, `this.config.minLamports || 0`,
`this.config.minAgeDays && this.config.minAgeDays > 0`) is modelled with
`Option.getD 0`, which coincides on undefined, zero and positive values. -/
def checkEligibility (cfg : PolicyConfig) (parseTime : String → Int) (now : Int)
    (account : SponsoredAccount) : PolicyDecision :=
  if cfg.whitelist.contains account.account_pubkey then
    ⟨some "PROTECTED", "Whitelisted"⟩
  else if account.lamports = none ∨ account.owner_program = none then
    ⟨some "SKIPPED",
      "Missing lifecycle data (Account might simply be closed/null already)"⟩
  else if account.owner_program ≠ some SYSTEM_PROGRAM_ID then
    ⟨some "SKIPPED", "Owner is not System Program (Owner: " ++
      account.owner_program.getD "" ++ ")"⟩
  else if account.data_len.getD 0 > 0 then
    ⟨some "SKIPPED", "Account has data (" ++ toString (account.data_len.getD 0) ++
      " bytes)"⟩
  else
    let balance := account.lamports.getD 0
    let minL := cfg.minLamports.getD 0
    if balance < minL then
      ⟨some "DUST", "Balance " ++ toString balance ++ " < Min " ++ toString minL⟩
    else if balance ≤ 0 then
      ⟨some "SKIPPED", "0 Balance"⟩
    else if cfg.minAgeDays.getD 0 > 0 then
      if account.last_lifecycle_check = none ∨
          account.last_lifecycle_check = some "" then
        ⟨some "SKIPPED", "No age data (run lifecycle scan first)"⟩
      else
        let diffTime := now - parseTime (account.last_lifecycle_check.getD "")
        if diffTime < cfg.minAgeDays.getD 0 * 86400000 then
          ⟨none, "Age below minimum"⟩
        else
          ⟨some "RECLAIMABLE", "Passes all safety & eligibility rules"⟩
    else
      ⟨some "RECLAIMABLE", "Passes all safety & eligibility rules"⟩

/-- `JSON.stringify({ config: this.config })`, the evidence payload of a
policy transition. -/
def configEvidence (cfg : PolicyConfig) : JsValue :=
  .obj [("config", .obj
    [("minLamports", optNum cfg.minLamports),
     ("minAgeDays", optNum cfg.minAgeDays),
     ("whitelist", .arr (cfg.whitelist.map JsValue.str))])]

/-- `AUTOINCREMENT`: the next id is larger than every id ever used. -/
def nextEventId (l : Ledger) : Int :=
  (l.lifecycle_events.map (·.id)).foldl max 0 + 1

/-- `updateState`: set the row's `lifecycle_state` and append one
LifecycleEvent. -/
def updateState (l : Ledger) (pubkey oldState newState reason : String)
    (cfg : PolicyConfig) (ts : String) : Ledger :=
  { sponsored_accounts := l.sponsored_accounts.map fun a =>
      if a.account_pubkey = pubkey then { a with lifecycle_state := newState }
      else a
    lifecycle_events := l.lifecycle_events ++
      [{ id := nextEventId l
         account_pubkey := pubkey
         old_state := oldState
         new_state := newState
         trigger_reason := "Policy: " ++ reason
         evidence_payload := some (configEvidence cfg)
         timestamp := ts }] }

/-- The candidate `WHERE` clause: case-sensitive (binary-collation)
`lifecycle_state NOT IN ('RECLAIMABLE', 'reclaimed', 'closed_zero')`. -/
def isCandidate (a : SponsoredAccount) : Bool :=
  !(["RECLAIMABLE", "reclaimed", "closed_zero"].contains a.lifecycle_state)

/-- `evaluate`: scan the candidates in `account_pubkey` order and apply
every transition whose new state differs from the stored one. -/
def evaluate (cfg : PolicyConfig) (parseTime : String → Int) (now : Int)
    (ts : String) (l : Ledger) : Ledger :=
  let candidates := sortAccounts (l.sponsored_accounts.filter isCandidate)
  candidates.foldl (fun acc account =>
    let decision := checkEligibility cfg parseTime now account
    match decision.newState with
    | some s =>
        if s ≠ account.lifecycle_state then
          updateState acc account.account_pubkey account.lifecycle_state s
            decision.reason cfg ts
        else acc
    | none => acc) l

end PolicyEngine

/-- C2: the claim (RECLAIMED is terminal for the Policy Engine) is the
spec's and the code's own stated intent — the candidate-query comment
reads "not already final states (RECLAIMABLE, RECLAIMED, ...)" — but the
SQL exclusion list carries the lowercase literal 'reclaimed' while the
Reclaimer writes 'RECLAIMED', and the comparison is case-sensitive.  At
this failing input (an account already RECLAIMED with zero balance, config
`min_lamports = 1000`) the engine re-evaluates the account, moves it to
DUST and appends a LifecycleEvent. -/
theorem C2_policy_engine_moves_reclaimed_account :
    ((PolicyEngine.evaluate ⟨some 1000, none, []⟩ (fun _ => 0) 0 "ts"
        ⟨[⟨"A", "sigA", 1, "d0", "OP", "RECLAIMED", some 0, some 0,
           some SYSTEM_PROGRAM_ID, none, none⟩], []⟩).sponsored_accounts.map
      (fun a => a.lifecycle_state) = ["DUST"]) ∧
    ((PolicyEngine.evaluate ⟨some 1000, none, []⟩ (fun _ => 0) 0 "ts"
        ⟨[⟨"A", "sigA", 1, "d0", "OP", "RECLAIMED", some 0, some 0,
           some SYSTEM_PROGRAM_ID, none, none⟩], []⟩).lifecycle_events.map
      (fun e => (e.account_pubkey, e.old_state, e.new_state)) =
      [("A", "RECLAIMED", "DUST")]) := by
  constructor <;> decide

/-! ## Indexer (`src/core/indexer.ts`)

`run` pages backwards through the operator's signature history.  The
chain is modelled as the full signature list, newest first, with distinct
signatures; under that assumption `before`-pagination from the last
element of a fetched page is exactly dropping the fetched page, so the
loop is modelled on the remaining suffix, with fuel bounded by the
history length (each non-empty page consumes at least one signature). -/

namespace Indexer

/-- One page of `getSignaturesForAddress`: entries older than `before`
(exclusive), stopping at `until` (exclusive), at most `limit` entries. -/
def getSignatures (chain : List String) (limit : Nat)
    (untilSig beforeSig : Option String) : List String :=
  let afterBefore := match beforeSig with
    | none => chain
    | some b => (chain.dropWhile (fun s => s != b)).drop 1
  let upToUntil := match untilSig with
    | none => afterBefore
    | some u => afterBefore.takeWhile (fun s => s != u)
  upToUntil.take limit

/-- The `while (hasMore)` loop of `Indexer.run`, tracking every value
passed to `saveCursor`.  `untilSig` is the resume cursor loaded once at
the start of the run; the guard `if (!untilSignature) saveCursor(...)`
sits inside the loop body and fires after every processed page. -/
def runWritesAux (limit : Nat) (untilSig : Option String) :
    Nat → List String → List String
  | 0, _ => []
  | fuel + 1, remaining =>
    let page := getSignatures remaining limit untilSig none
    if page.isEmpty then []
    else
      (if untilSig.isNone then [page.headD ""] else []) ++
        runWritesAux limit untilSig fuel (remaining.drop page.length)

/-- The sequence of cursor writes of one complete `Indexer.run` over the
given history with the given prior resume cursor. -/
def runWrites (limit : Nat) (untilSig : Option String)
    (chain : List String) : List String :=
  runWritesAux limit untilSig chain.length chain

theorem runWritesAux_some (limit : Nat) (u : String) :
    ∀ fuel remaining, runWritesAux limit (some u) fuel remaining = []
  | 0, _ => rfl
  | fuel + 1, remaining => by
    simp only [runWritesAux]
    split
    · rfl
    · simpa [Option.isNone] using runWritesAux_some limit u fuel _

end Indexer

/-- C3: the claim matches the code's own comment ("Only update the cursor
with the latest signature from the first batch of a new run") and the
spec, but the `saveCursor` call sits inside the pagination loop and
`untilSignature` is read once before the loop, so a run with no prior
cursor writes the cursor once per page, each write older than the one
before.  Failing input: a fresh database and a 101-signature history; the
run writes the cursor twice, `s0` (newest of page one) and then `s100`
(the only entry of page two), leaving the cursor at the older signature.
A run with a prior cursor indeed never writes. -/
theorem C3_indexer_cursor_write_per_page :
    Indexer.runWrites 100 none
        ((List.range 101).map (fun i => "s" ++ toString i)) = ["s0", "s100"] ∧
    (∀ u chain, Indexer.runWrites 100 (some u) chain = []) :=
  ⟨by decide, fun u chain => Indexer.runWritesAux_some 100 u chain.length chain⟩

/-! ## Reclaimer JIT verification (`src/core/reclaimer/verify.ts`) -/

structure ReclaimableAccount where
  account_pubkey : String
  lamports : Option Int
  deriving DecidableEq, Repr

/-- The on-chain view returned by `getMultipleAccountsInfo` for one
address (`null` for an absent account is `Option.none` one level up). -/
structure AccountInfo where
  lamports : Int
  owner : String
  dataLen : Nat
  deriving DecidableEq, Repr

structure VerifiedAccount where
  account_pubkey : String
  lamports : Option Int
  verifiedLamports : Int
  deriving DecidableEq, Repr

structure InvalidAccount where
  pubkey : String
  reason : String
  status : String
  deriving DecidableEq, Repr

structure VerificationResult where
  valid : List VerifiedAccount
  invalid : List InvalidAccount
  deriving DecidableEq, Repr

namespace ReclaimerVerifier

/-- The loop body of `ReclaimerVerifier.verify` for one address: the four
re-validation rules in source order, else verified with the on-chain
balance. -/
def classify (acc : ReclaimableAccount) (info : Option AccountInfo) :
    Sum VerifiedAccount InvalidAccount :=
  match info with
  | none =>
      .inr ⟨acc.account_pubkey, "Account does not exist on-chain", "closed_zero"⟩
  | some i =>
      if i.lamports = 0 then
        .inr ⟨acc.account_pubkey, "Account has 0 lamports", "closed_zero"⟩
      else if i.owner ≠ SYSTEM_PROGRAM_ID then
        .inr ⟨acc.account_pubkey, "Owner changed to " ++ i.owner, "SKIPPED"⟩
      else if i.dataLen > 0 then
        .inr ⟨acc.account_pubkey, "Account has data len " ++ toString i.dataLen,
          "SKIPPED"⟩
      else
        .inl ⟨acc.account_pubkey, acc.lamports, i.lamports⟩

/-- `verify`: walk the batch with the positionally matching chain
responses (`accountInfos[i]`; an index past the response list is
`undefined`, treated as absent). -/
def verify : List ReclaimableAccount → List (Option AccountInfo) →
    VerificationResult
  | [], _ => ⟨[], []⟩
  | a :: as, [] =>
      let r := verify as []
      match classify a none with
      | .inl v => ⟨v :: r.valid, r.invalid⟩
      | .inr inv => ⟨r.valid, inv :: r.invalid⟩
  | a :: as, i :: is =>
      let r := verify as is
      match classify a i with
      | .inl v => ⟨v :: r.valid, r.invalid⟩
      | .inr inv => ⟨r.valid, inv :: r.invalid⟩

/-- The whole batch classified in order. -/
def classifyAll : List ReclaimableAccount → List (Option AccountInfo) →
    List (Sum VerifiedAccount InvalidAccount)
  | [], _ => []
  | a :: as, [] => classify a none :: classifyAll as []
  | a :: as, i :: is => classify a i :: classifyAll as is

theorem verify_eq_classifyAll :
    ∀ (accs : List ReclaimableAccount) (infos : List (Option AccountInfo)),
      verify accs infos =
        ⟨(classifyAll accs infos).filterMap (fun s => s.getLeft?),
         (classifyAll accs infos).filterMap (fun s => s.getRight?)⟩
  | [], _ => rfl
  | a :: as, [] => by
      simp only [verify, classifyAll, verify_eq_classifyAll as []]
      cases classify a none <;> simp [List.filterMap_cons]
  | a :: as, i :: is => by
      simp only [verify, classifyAll, verify_eq_classifyAll as is]
      cases classify a i <;> simp [List.filterMap_cons]

end ReclaimerVerifier

/-- C6: `ReclaimerVerifier.verify` partitions the batch by applying, per
address and in source order: absent → `closed_zero`; on-chain lamports 0 →
`closed_zero`; owner ≠ system program → `SKIPPED`; data length > 0 →
`SKIPPED`; otherwise verified, carrying the on-chain lamports value as
`verifiedLamports` (the ledger's cached `lamports` is carried unchanged in
its own field and not used for `verifiedLamports`). -/
theorem C6_jit_verification_rules :
    (∀ (accs : List ReclaimableAccount) (infos : List (Option AccountInfo)),
      ReclaimerVerifier.verify accs infos =
        ⟨(ReclaimerVerifier.classifyAll accs infos).filterMap
            (fun s => s.getLeft?),
         (ReclaimerVerifier.classifyAll accs infos).filterMap
            (fun s => s.getRight?)⟩) ∧
    (∀ acc : ReclaimableAccount,
      ReclaimerVerifier.classify acc none =
        .inr ⟨acc.account_pubkey, "Account does not exist on-chain",
          "closed_zero"⟩) ∧
    (∀ (acc : ReclaimableAccount) (i : AccountInfo), i.lamports = 0 →
      ReclaimerVerifier.classify acc (some i) =
        .inr ⟨acc.account_pubkey, "Account has 0 lamports", "closed_zero"⟩) ∧
    (∀ (acc : ReclaimableAccount) (i : AccountInfo),
      i.lamports ≠ 0 → i.owner ≠ SYSTEM_PROGRAM_ID →
      ReclaimerVerifier.classify acc (some i) =
        .inr ⟨acc.account_pubkey, "Owner changed to " ++ i.owner, "SKIPPED"⟩) ∧
    (∀ (acc : ReclaimableAccount) (i : AccountInfo),
      i.lamports ≠ 0 → i.owner = SYSTEM_PROGRAM_ID → i.dataLen > 0 →
      ReclaimerVerifier.classify acc (some i) =
        .inr ⟨acc.account_pubkey,
          "Account has data len " ++ toString i.dataLen, "SKIPPED"⟩) ∧
    (∀ (acc : ReclaimableAccount) (i : AccountInfo),
      i.lamports ≠ 0 → i.owner = SYSTEM_PROGRAM_ID → i.dataLen = 0 →
      ReclaimerVerifier.classify acc (some i) =
        .inl ⟨acc.account_pubkey, acc.lamports, i.lamports⟩) := by
  refine ⟨ReclaimerVerifier.verify_eq_classifyAll, fun acc => rfl,
    ?h2, ?h3, ?h4, ?h5⟩
  · intro acc i h
    simp [ReclaimerVerifier.classify, h]
  · intro acc i h1 h2
    simp [ReclaimerVerifier.classify, h1, h2]
  · intro acc i h1 h2 h3
    simp [ReclaimerVerifier.classify, h1, h2, h3]
  · intro acc i h1 h2 h3
    simp [ReclaimerVerifier.classify, h1, h2, h3]

/-- Witness for C6: a verified account picks up the on-chain balance 7,
not the cached 100; a zero-balance account is `closed_zero`. -/
theorem C6_jit_verification_rules_witness :
    ReclaimerVerifier.classify ⟨"A", some 100⟩ (some ⟨7, SYSTEM_PROGRAM_ID, 0⟩) =
      .inl ⟨"A", some 100, 7⟩ ∧
    ReclaimerVerifier.classify ⟨"B", some 100⟩ (some ⟨0, SYSTEM_PROGRAM_ID, 2⟩) =
      .inr ⟨"B", "Account has 0 lamports", "closed_zero"⟩ :=
  ⟨C6_jit_verification_rules.2.2.2.2.2 ⟨"A", some 100⟩ ⟨7, SYSTEM_PROGRAM_ID, 0⟩
      (by decide) rfl rfl,
   C6_jit_verification_rules.2.2.1 ⟨"B", some 100⟩ ⟨0, SYSTEM_PROGRAM_ID, 2⟩ rfl⟩

/-! ## Reclaimer fetch-and-lock (`src/core/reclaimer/fetch.ts`) -/

namespace ReclaimerFetcher

/-- `processing_lock IS NULL OR processing_lock = ''`. -/
def lockFree : Option String → Bool
  | none => true
  | some s => s == ""

/-- The candidate `WHERE` clause of `fetchAndLock`. -/
def isFetchCandidate (a : SponsoredAccount) : Bool :=
  a.lifecycle_state == "RECLAIMABLE" && lockFree a.processing_lock

/-- `fetchAndLock`: inside one ledger transaction, select up to `limit`
unlocked RECLAIMABLE rows in table order (`SELECT account_pubkey,
lamports ... LIMIT ?`), then set `processing_lock = workerId` on each
selected row.  Returns the selected rows and the updated ledger. -/
def fetchAndLock (limit : Nat) (workerId : String) (l : Ledger) :
    List ReclaimableAccount × Ledger :=
  let candidates := (l.sponsored_accounts.filter isFetchCandidate).take limit
  let pubkeys := candidates.map (fun a => a.account_pubkey)
  let updated : Ledger :=
    { l with sponsored_accounts := l.sponsored_accounts.map fun a =>
        if pubkeys.contains a.account_pubkey then
          { a with processing_lock := some workerId }
        else a }
  (candidates.map (fun a => ⟨a.account_pubkey, a.lamports⟩), updated)

theorem fetchAndLock_sound (limit : Nat) (workerId : String) (l : Ledger) :
    ∀ r ∈ (fetchAndLock limit workerId l).1,
      ∃ a ∈ l.sponsored_accounts,
        a.account_pubkey = r.account_pubkey ∧
        a.lifecycle_state = "RECLAIMABLE" ∧
        (a.processing_lock = none ∨ a.processing_lock = some "") := by
  intro r hr
  simp only [fetchAndLock, List.mem_map] at hr
  obtain ⟨a, ha, rfl⟩ := hr
  have ha2 : a ∈ l.sponsored_accounts.filter isFetchCandidate :=
    List.take_subset _ _ ha
  have ha3 := List.mem_filter.mp ha2
  refine ⟨a, ha3.1, rfl, ?hs, ?hl⟩
  · have := ha3.2
    simp only [isFetchCandidate, Bool.and_eq_true, beq_iff_eq] at this
    exact this.1
  · have := ha3.2
    simp only [isFetchCandidate, Bool.and_eq_true, beq_iff_eq] at this
    cases hlock : a.processing_lock with
    | none => exact Or.inl rfl
    | some s =>
        have h2 := this.2
        rw [hlock] at h2
        simp only [lockFree, beq_iff_eq] at h2
        exact Or.inr (congrArg some h2)

end ReclaimerFetcher

namespace ReclaimerFetcher

theorem fetchAndLock_locks (limit : Nat) (w : String) (l : Ledger) :
    ∀ r ∈ (fetchAndLock limit w l).1,
      ∀ a ∈ (fetchAndLock limit w l).2.sponsored_accounts,
        a.account_pubkey = r.account_pubkey → a.processing_lock = some w := by
  intro r hr a ha hpk
  simp only [fetchAndLock, List.mem_map] at hr ha
  obtain ⟨a1, ha1, rfl⟩ := hr
  obtain ⟨a0, ha0, rfl⟩ := ha
  by_cases hc : (((l.sponsored_accounts.filter isFetchCandidate).take limit).map
      (fun a => a.account_pubkey)).contains a0.account_pubkey = true
  · rw [if_pos hc]
  · rw [if_neg hc] at hpk ⊢
    exfalso
    apply hc
    have hmem : a1.account_pubkey ∈
        ((l.sponsored_accounts.filter isFetchCandidate).take limit).map
          (fun a => a.account_pubkey) :=
      List.mem_map_of_mem _ ha1
    rw [hpk]
    simpa [List.contains, List.elem_iff] using hmem

theorem fetchAndLock_disjoint (limit1 limit2 : Nat) (w1 w2 : String)
    (l : Ledger) (hw : w1 ≠ "") :
    ∀ r1 ∈ (fetchAndLock limit1 w1 l).1,
      ∀ r2 ∈ (fetchAndLock limit2 w2 (fetchAndLock limit1 w1 l).2).1,
        r1.account_pubkey ≠ r2.account_pubkey := by
  intro r1 hr1 r2 hr2 heq
  obtain ⟨a2, ha2mem, ha2pk, ha2state, ha2lock⟩ :=
    fetchAndLock_sound limit2 w2 _ r2 hr2
  simp only [fetchAndLock, List.mem_map] at ha2mem hr1
  obtain ⟨a0, ha0, rfl⟩ := ha2mem
  obtain ⟨a1, ha1, rfl⟩ := hr1
  by_cases hc : (((l.sponsored_accounts.filter isFetchCandidate).take limit1).map
      (fun a => a.account_pubkey)).contains a0.account_pubkey = true
  · rw [if_pos hc] at ha2lock
    rcases ha2lock with h | h
    · exact absurd h (by simp)
    · exact hw (Option.some.inj h)
  · rw [if_neg hc] at ha2pk
    apply hc
    have hmem : a1.account_pubkey ∈
        ((l.sponsored_accounts.filter isFetchCandidate).take limit1).map
          (fun a => a.account_pubkey) :=
      List.mem_map_of_mem _ ha1
    have hpk0 : a0.account_pubkey = a1.account_pubkey := by
      rw [ha2pk, ← heq]
    rw [hpk0]
    simpa [List.contains, List.elem_iff] using hmem

end ReclaimerFetcher

/-- C9: fetch-and-lock exclusivity.  Every returned row was RECLAIMABLE
with a null/empty `processing_lock`; after the call every ledger row with
a returned pubkey carries `processing_lock = workerId`; and a subsequent
`fetchAndLock` with a distinct worker id (worker ids are non-empty 128-bit
identifiers) returns a disjoint set of accounts. -/
theorem C9_fetch_and_lock_exclusive :
    (∀ (limit : Nat) (w : String) (l : Ledger),
      ∀ r ∈ (ReclaimerFetcher.fetchAndLock limit w l).1,
        ∃ a ∈ l.sponsored_accounts,
          a.account_pubkey = r.account_pubkey ∧
          a.lifecycle_state = "RECLAIMABLE" ∧
          (a.processing_lock = none ∨ a.processing_lock = some "")) ∧
    (∀ (limit : Nat) (w : String) (l : Ledger),
      ∀ r ∈ (ReclaimerFetcher.fetchAndLock limit w l).1,
        ∀ a ∈ (ReclaimerFetcher.fetchAndLock limit w l).2.sponsored_accounts,
          a.account_pubkey = r.account_pubkey → a.processing_lock = some w) ∧
    (∀ (limit1 limit2 : Nat) (w1 w2 : String) (l : Ledger),
      w1 ≠ "" → w2 ≠ w1 →
      ∀ r1 ∈ (ReclaimerFetcher.fetchAndLock limit1 w1 l).1,
        ∀ r2 ∈ (ReclaimerFetcher.fetchAndLock limit2 w2
            (ReclaimerFetcher.fetchAndLock limit1 w1 l).2).1,
          r1.account_pubkey ≠ r2.account_pubkey) :=
  ⟨ReclaimerFetcher.fetchAndLock_sound,
   ReclaimerFetcher.fetchAndLock_locks,
   fun limit1 limit2 w1 w2 l hw _ =>
     ReclaimerFetcher.fetchAndLock_disjoint limit1 limit2 w1 w2 l hw⟩

/-- Witness for C9: two RECLAIMABLE rows; worker W1 takes "A", then
worker W2 takes "B", and the theorem yields their disjointness. -/
theorem C9_fetch_and_lock_exclusive_witness :
    (⟨"A", some 5⟩ : ReclaimableAccount) ∈
      (ReclaimerFetcher.fetchAndLock 1 "W1"
        ⟨[⟨"A", "sA", 1, "d", "OP", "RECLAIMABLE", some 5, some 0,
            some SYSTEM_PROGRAM_ID, none, none⟩,
          ⟨"B", "sB", 2, "d", "OP", "RECLAIMABLE", some 7, some 0,
            some SYSTEM_PROGRAM_ID, none, none⟩], []⟩).1 ∧
    (⟨"B", some 7⟩ : ReclaimableAccount) ∈
      (ReclaimerFetcher.fetchAndLock 1 "W2"
        (ReclaimerFetcher.fetchAndLock 1 "W1"
          ⟨[⟨"A", "sA", 1, "d", "OP", "RECLAIMABLE", some 5, some 0,
              some SYSTEM_PROGRAM_ID, none, none⟩,
            ⟨"B", "sB", 2, "d", "OP", "RECLAIMABLE", some 7, some 0,
              some SYSTEM_PROGRAM_ID, none, none⟩], []⟩).2).1 ∧
    ("A" : String) ≠ "B" := by
  refine ⟨by decide, by decide, ?hne⟩
  exact C9_fetch_and_lock_exclusive.2.2 1 1 "W1" "W2"
    ⟨[⟨"A", "sA", 1, "d", "OP", "RECLAIMABLE", some 5, some 0,
        some SYSTEM_PROGRAM_ID, none, none⟩,
      ⟨"B", "sB", 2, "d", "OP", "RECLAIMABLE", some 7, some 0,
        some SYSTEM_PROGRAM_ID, none, none⟩], []⟩
    (by decide) (by decide) ⟨"A", some 5⟩ (by decide) ⟨"B", some 7⟩ (by decide)

/-! ## Database singleton (`src/db/database.ts`) -/

namespace AppDatabase

/-- `AppDatabase.getInstance(dbPath)`: the static `instance` field is the
state; a connection is identified by the path it was opened with.  On the
first call the connection is opened at `dbPath`; afterwards the stored
instance is returned and `dbPath` is ignored. -/
def getInstance (dbPath : String) : Option String → String × Option String
  | none => (dbPath, some dbPath)
  | some p => (p, some p)

/-- A sequence of `getInstance` calls, returning the connection (its
opening path) handed out at each call. -/
def runCalls : Option String → List String → List String
  | _, [] => []
  | st, p :: ps =>
      let r := getInstance p st
      r.1 :: runCalls r.2 ps

theorem runCalls_some (q : String) :
    ∀ ps : List String, runCalls (some q) ps = ps.map (fun _ => q)
  | [] => rfl
  | p :: ps => by simp [runCalls, getInstance, runCalls_some q ps]

end AppDatabase

/-- C10: `AppDatabase.getInstance` ignores its `dbPath` argument after the
first call — for every sequence of calls, the first call opens the
connection at its own path and every later call returns that same
connection no matter which paths (stages, networks) are passed. -/
theorem C10_database_singleton_ignores_path :
    ∀ (p0 : String) (later : List String),
      AppDatabase.runCalls none (p0 :: later) =
        p0 :: later.map (fun _ => p0) := by
  intro p0 later
  simp [AppDatabase.runCalls, AppDatabase.getInstance,
    AppDatabase.runCalls_some p0 later]

/-! ## Attestation manifest and result digest
(`src/core/attestation/manifest.ts`, `result.ts`) -/

structure ExecutionManifest where
  version : String
  network : String
  operator_pubkey : Option String
  min_lamports : Int
  min_age_days : Int
  whitelist_hash : Option String
  rpc_endpoint : String
  db_state_hash : String
  candidates : List String
  deriving DecidableEq, Repr

/-- The manifest as the JS object handed to `canonicalize` (property
order as constructed by `ManifestBuilder.build`). -/
def manifestToJs (m : ExecutionManifest) : JsValue :=
  .obj [("version", .str m.version),
        ("network", .str m.network),
        ("operator_pubkey", optStr m.operator_pubkey),
        ("config", .obj
          [("min_lamports", .num m.min_lamports),
           ("min_age_days", .num m.min_age_days),
           ("whitelist_hash", optStr m.whitelist_hash)]),
        ("rpc_endpoint", .str m.rpc_endpoint),
        ("db_state_hash", .str m.db_state_hash),
        ("candidates", .arr (m.candidates.map JsValue.str))]

/-- `stringifyManifest`: `JSON.stringify(canonicalize(manifest))`. -/
def stringifyManifest (m : ExecutionManifest) : String :=
  stringify (canonicalize (manifestToJs m))

structure Failure where
  pubkey : String
  reason : String
  deriving DecidableEq, Repr

structure ExecutionResultDigest where
  evaluated_count : Int
  accounts : List (String × String)
  total_lamports_reclaimed : String
  transaction_signatures : List String
  failures : List Failure
  deriving DecidableEq, Repr

/-- The result digest as the JS object handed to `canonicalize`. -/
def resultToJs (r : ExecutionResultDigest) : JsValue :=
  .obj [("evaluated_count", .num r.evaluated_count),
        ("accounts", .obj (r.accounts.map (fun p => (p.1, JsValue.str p.2)))),
        ("total_lamports_reclaimed", .str r.total_lamports_reclaimed),
        ("transaction_signatures",
          .arr (r.transaction_signatures.map JsValue.str)),
        ("failures", .arr (r.failures.map (fun f =>
          .obj [("pubkey", .str f.pubkey), ("reason", .str f.reason)])))]

/-- `stringifyResult`: `JSON.stringify(canonicalize(result))`. -/
def stringifyResult (r : ExecutionResultDigest) : String :=
  stringify (canonicalize (resultToJs r))

/-! ## Attestor (`src/core/attestation/attestor.ts`)

Modelled from the spec: the Ed25519 primitive (`tweetnacl`
`nacl.sign.detached` / `nacl.sign.detached.verify` over the raw 32-byte
attestation hash) is library code outside this repository; it is embedded
as an idealized deterministic signature scheme in which a signature token
verifies exactly for the message it signed under the signer's public key,
and `bs58` decoding of the stored base58 public key is the identity on the
rendered key. -/

structure Keypair where
  seed : Nat
  deriving DecidableEq, Repr

/-- `keypair.publicKey.toBase58()`. -/
def publicKeyBase58 (k : Keypair) : String := "pk" ++ toString k.seed

/-- `nacl.sign.detached(message, secretKey)`, idealized. -/
def signDetached (msg : List Nat) (k : Keypair) : String :=
  "sig:" ++ toHex msg ++ ":" ++ publicKeyBase58 k

/-- `nacl.sign.detached.verify(message, sig, pubkey)`, idealized. -/
def verifyDetached (msg : List Nat) (sig pubkey : String) : Bool :=
  sig == "sig:" ++ toHex msg ++ ":" ++ pubkey

structure AttestationDoc where
  manifest : ExecutionManifest
  db_state_hash : String
  result_digest : ExecutionResultDigest
  attestation_hash : String
  signature : Option String
  deriving DecidableEq, Repr

namespace Attestor

/-- The attestation hash bytes:
`SHA256(utf8(manifestStr) || utf8(dbHash) || utf8(resultStr))` where
`dbHash` is read from the manifest. -/
def attestationHashBytes (m : ExecutionManifest)
    (r : ExecutionResultDigest) : List Nat :=
  sha256 (utf8Bytes (stringifyManifest m) ++ utf8Bytes m.db_state_hash ++
    utf8Bytes (stringifyResult r))

/-- `Attestor.generate`. -/
def generate (m : ExecutionManifest) (r : ExecutionResultDigest)
    (operatorKeypair : Option Keypair) : AttestationDoc :=
  let hashBytes := attestationHashBytes m r
  { manifest := m
    db_state_hash := m.db_state_hash
    result_digest := r
    attestation_hash := toHex hashBytes
    signature := operatorKeypair.map (signDetached hashBytes) }

/-- `Attestor.verify`.  JS truthiness of the guards
`doc.manifest.db_state_hash && ...` and
`doc.signature && doc.manifest.operator_pubkey` makes empty strings skip
the corresponding check. -/
def verify (doc : AttestationDoc) : Bool :=
  let computed := attestationHashBytes doc.manifest doc.result_digest
  if toHex computed != doc.attestation_hash then false
  else if doc.manifest.db_state_hash != "" &&
      doc.manifest.db_state_hash != doc.db_state_hash then false
  else
    match doc.signature, doc.manifest.operator_pubkey with
    | some sig, some pk =>
        if sig != "" && pk != "" then verifyDetached computed sig pk
        else true
    | _, _ => true

end Attestor

/-- C7 counterexample: `generate` signs with the supplied keypair but
never writes that keypair's public key into the manifest; with a manifest
whose `operator_pubkey` (`"pk2"`) differs from the signer (`"pk1"`),
`verify(generate(m, r, kp))` is `false`, refuting the claim for *every*
manifest and keypair. -/
theorem C7_attestation_roundtrip_counterexample :
    Attestor.verify (Attestor.generate
      ⟨"1.0.0", "devnet", some "pk2", 1000, 0, none, "https://h", "d", []⟩
      ⟨0, [], "0", [], []⟩ (some ⟨1⟩)) = false := by
  decide

/-- C7 (amended): `verify(generate(manifest, resultDigest, keypair))`
returns true whenever the keypair is absent, or the manifest's
`operator_pubkey` is null, or the manifest's `operator_pubkey` is the
signing keypair's public key — the three situations the calling
`AttestationService` produces. -/
theorem C7_attestation_roundtrip_conditional :
    ∀ (m : ExecutionManifest) (r : ExecutionResultDigest) (kp : Option Keypair),
      (kp = none ∨ m.operator_pubkey = none ∨
        m.operator_pubkey = kp.map publicKeyBase58) →
      Attestor.verify (Attestor.generate m r kp) = true := by
  intro m r kp h
  generalize hH : Attestor.attestationHashBytes m r = H
  rcases h with rfl | h | h
  · simp [Attestor.generate, Attestor.verify, hH]
  · rcases kp with _ | k <;> simp [Attestor.generate, Attestor.verify, hH, h]
  · rcases kp with _ | k
    · simp at h
      simp [Attestor.generate, Attestor.verify, hH, h]
    · simp at h
      simp only [Attestor.generate, Attestor.verify, hH, h, Option.map,
        bne_self_eq_false, Bool.false_eq_true, if_false, Bool.and_false]
      split
      · simp [verifyDetached, signDetached]
      · rfl

/-- Witness for C7: a signed round-trip whose manifest carries the
signer's public key, and an unsigned round-trip. -/
theorem C7_attestation_roundtrip_conditional_witness :
    Attestor.verify (Attestor.generate
      ⟨"1.0.0", "devnet", some "pk1", 1000, 0, none, "https://h", "d", []⟩
      ⟨0, [], "0", [], []⟩ (some ⟨1⟩)) = true ∧
    Attestor.verify (Attestor.generate
      ⟨"1.0.0", "devnet", none, 1000, 0, none, "https://h", "d", []⟩
      ⟨0, [], "0", [], []⟩ none) = true :=
  ⟨C7_attestation_roundtrip_conditional _ _ _ (Or.inr (Or.inr (by decide))),
   C7_attestation_roundtrip_conditional _ _ _ (Or.inl rfl)⟩

/-! ## Attestation service result digest (`src/core/attestation/index.ts`) -/

/-- First field with key `k` of a JS object value. -/
def lookupField (k : String) : JsValue → Option JsValue
  | .obj fs => (fs.find? (fun p => p.1 == k)).map Prod.snd
  | _ => none

namespace AttestationService

/-- `if (payload.amount)` — JS truthiness of the numeric evidence field:
a missing key, null or 0 is falsy.  The payloads this system writes carry
integral `amount`s. -/
def truthyAmount (p : JsValue) : Option Int :=
  match lookupField "amount" p with
  | some (.num n) => if n = 0 then none else some n
  | _ => none

/-- `if (payload.signature)` — truthiness of the string evidence field. -/
def truthySignature (p : JsValue) : Option String :=
  match lookupField "signature" p with
  | some (.str s) => if s = "" then none else some s
  | _ => none

/-- `SELECT evidence_payload FROM lifecycle_events WHERE account_pubkey =
? AND new_state = 'RECLAIMED'` with `.get()` and no `ORDER BY`: the first
matching row in storage (id) order. -/
def firstReclaimedEvent (events : List LifecycleEvent) (pk : String) :
    Option LifecycleEvent :=
  events.find? (fun e => e.account_pubkey == pk && e.new_state == "RECLAIMED")

/-- The analogous `.get()` for `new_state = 'FAILED'`. -/
def firstFailedEvent (events : List LifecycleEvent) (pk : String) :
    Option LifecycleEvent :=
  events.find? (fun e => e.account_pubkey == pk && e.new_state == "FAILED")

/-- The lamports contribution of one scanned account row: the truthy
`amount` of the first RECLAIMED event's payload, else 0 — the lookup runs
for every row, regardless of the row's current `lifecycle_state`. -/
def rowAmount (events : List LifecycleEvent) (row : SponsoredAccount) : Int :=
  match firstReclaimedEvent events row.account_pubkey with
  | some e =>
      match e.evidence_payload with
      | some p => (truthyAmount p).getD 0
      | none => 0
  | none => 0

/-- The signature contributed by one scanned account row, if any. -/
def rowSignature (events : List LifecycleEvent) (row : SponsoredAccount) :
    Option String :=
  match firstReclaimedEvent events row.account_pubkey with
  | some e =>
      match e.evidence_payload with
      | some p => truthySignature p
      | none => none
  | none => none

/-- The failure recorded for one scanned account row:
`failEvent?.trigger_reason || 'Unknown error'` for rows whose state is
FAILED. -/
def rowFailure (events : List LifecycleEvent) (row : SponsoredAccount) :
    Option Failure :=
  if row.lifecycle_state == "FAILED" then
    some ⟨row.account_pubkey,
      match firstFailedEvent events row.account_pubkey with
      | some e => if e.trigger_reason == "" then "Unknown error"
                  else e.trigger_reason
      | none => "Unknown error"⟩
  else none

/-- The in-memory `ResultBuilder` accumulator. -/
structure BuilderState where
  accounts : List (String × String)
  totalLamports : Int
  signatures : List String
  failures : List Failure

/-- `this.accounts[pubkey] = state`: JS record upsert (an existing key
keeps its property position). -/
def upsert (m : List (String × String)) (k v : String) :
    List (String × String) :=
  if m.any (fun p => p.1 == k) then
    m.map (fun p => if p.1 == k then (k, v) else p)
  else m ++ [(k, v)]

/-- One iteration of `AttestationService.generate`'s account scan:
`addResult` (state map and running BigInt total), possibly `addSignature`,
possibly `addFailure`. -/
def processAccount (events : List LifecycleEvent) (st : BuilderState)
    (row : SponsoredAccount) : BuilderState :=
  let st1 : BuilderState :=
    { accounts := upsert st.accounts row.account_pubkey row.lifecycle_state
      totalLamports := st.totalLamports + rowAmount events row
      signatures := st.signatures ++ (rowSignature events row).toList
      failures := st.failures }
  match rowFailure events row with
  | some f => { st1 with failures := st1.failures ++ [f] }
  | none => st1

/-- `[...].sort()` on signature strings (JS default string order). -/
def sigLe (a b : String) : Prop := strLe a b = true

instance : DecidableRel sigLe := fun a b =>
  inferInstanceAs (Decidable (strLe a b = true))

instance : IsTotal String sigLe := ⟨strLe_total⟩

instance : IsTrans String sigLe := ⟨fun _ _ _ => strLe_trans⟩

/-- `sort((a, b) => a.pubkey.localeCompare(b.pubkey))`, modelled as
code-point order on the base58 pubkeys. -/
def failureLe (a b : Failure) : Prop := strLe a.pubkey b.pubkey = true

instance : DecidableRel failureLe := fun a b =>
  inferInstanceAs (Decidable (strLe a.pubkey b.pubkey = true))

instance : IsTotal Failure failureLe := ⟨fun a b => strLe_total a.pubkey b.pubkey⟩

instance : IsTrans Failure failureLe := ⟨fun _ _ _ => strLe_trans⟩

/-- `ResultBuilder.build`. -/
def buildDigest (st : BuilderState) : ExecutionResultDigest :=
  { evaluated_count := st.accounts.length
    accounts := st.accounts
    total_lamports_reclaimed := toString st.totalLamports
    transaction_signatures := List.insertionSort sigLe st.signatures
    failures := List.insertionSort failureLe st.failures }

/-- The result-digest portion of `AttestationService.generate`: scan the
`sponsored_accounts` rows in storage order, then build. -/
def generateResultDigest (l : Ledger) : ExecutionResultDigest :=
  buildDigest (l.sponsored_accounts.foldl (processAccount l.lifecycle_events)
    ⟨[], 0, [], []⟩)

theorem foldl_totalLamports (events : List LifecycleEvent) :
    ∀ (rows : List SponsoredAccount) (st : BuilderState),
      (rows.foldl (processAccount events) st).totalLamports =
        st.totalLamports + (rows.map (rowAmount events)).sum
  | [], st => by simp
  | row :: rows, st => by
    simp only [List.foldl_cons, foldl_totalLamports events rows,
      List.map_cons, List.sum_cons]
    cases hf : rowFailure events row <;> simp [processAccount, hf] <;> ring

theorem foldl_signatures (events : List LifecycleEvent) :
    ∀ (rows : List SponsoredAccount) (st : BuilderState),
      (rows.foldl (processAccount events) st).signatures =
        st.signatures ++ rows.filterMap (rowSignature events)
  | [], st => by simp
  | row :: rows, st => by
    simp only [List.foldl_cons, foldl_signatures events rows,
      List.filterMap_cons]
    cases hf : rowFailure events row <;>
      cases hs : rowSignature events row <;>
        simp [processAccount, hf, hs]

theorem foldl_failures (events : List LifecycleEvent) :
    ∀ (rows : List SponsoredAccount) (st : BuilderState),
      (rows.foldl (processAccount events) st).failures =
        st.failures ++ rows.filterMap (rowFailure events)
  | [], st => by simp
  | row :: rows, st => by
    simp only [List.foldl_cons, foldl_failures events rows,
      List.filterMap_cons]
    cases hf : rowFailure events row <;> simp [processAccount, hf]

end AttestationService

/-- C8 counterexample: an account whose current `lifecycle_state` is
`ACTIVE` (not RECLAIMED) but which carries two historical
`new_state='RECLAIMED'` events (amount 5/signature "s1" with the lower id,
amount 7/signature "s2" with the higher id).  The digest adds 5 and "s1":
the event lookup runs for every account regardless of its state — the
claim would demand a zero total and no signatures here — and it takes the
first stored event, not the most recent one. -/
theorem C8_result_digest_counterexample :
    ((AttestationService.generateResultDigest
      ⟨[⟨"A", "s", 1, "d", "OP", "ACTIVE", some 5, some 0,
          some SYSTEM_PROGRAM_ID, none, none⟩],
        [⟨1, "A", "RECLAIMABLE", "RECLAIMED", "Reclamation Success",
           some (.obj [("signature", .str "s1"), ("amount", .num 5),
             ("slot", .str "confirmed")]), "t1"⟩,
         ⟨2, "A", "RECLAIMABLE", "RECLAIMED", "Reclamation Success",
           some (.obj [("signature", .str "s2"), ("amount", .num 7),
             ("slot", .str "confirmed")]), "t2"⟩]⟩).total_lamports_reclaimed
      = "5") ∧
    ((AttestationService.generateResultDigest
      ⟨[⟨"A", "s", 1, "d", "OP", "ACTIVE", some 5, some 0,
          some SYSTEM_PROGRAM_ID, none, none⟩],
        [⟨1, "A", "RECLAIMABLE", "RECLAIMED", "Reclamation Success",
           some (.obj [("signature", .str "s1"), ("amount", .num 5),
             ("slot", .str "confirmed")]), "t1"⟩,
         ⟨2, "A", "RECLAIMABLE", "RECLAIMED", "Reclamation Success",
           some (.obj [("signature", .str "s2"), ("amount", .num 7),
             ("slot", .str "confirmed")]), "t2"⟩]⟩).transaction_signatures
      = ["s1"]) ∧
    ("5" : String) ≠ "0" ∧ ("s1" : String) ≠ "s2" := by
  refine ⟨?h1, ?h2, by decide, by decide⟩
  · rfl
  · rfl

/-- C8 (amended): the digest adds, for *every* account having a
`new_state='RECLAIMED'` LifecycleEvent (regardless of the account's
current `lifecycle_state`), the truthy evidence `amount` of the *first*
(lowest-id) such event to the total (rendered as a decimal string) and
that event's truthy `signature` to `transaction_signatures`;
`transaction_signatures` is ascending-sorted, and `failures` (one entry
per FAILED account, reason from its first FAILED event or "Unknown
error") is sorted by pubkey ascending. -/
theorem C8_result_digest_characterization :
    ∀ l : Ledger,
      (AttestationService.generateResultDigest l).total_lamports_reclaimed =
        toString ((l.sponsored_accounts.map
          (AttestationService.rowAmount l.lifecycle_events)).sum) ∧
      (AttestationService.generateResultDigest l).transaction_signatures =
        List.insertionSort AttestationService.sigLe
          (l.sponsored_accounts.filterMap
            (AttestationService.rowSignature l.lifecycle_events)) ∧
      List.Sorted AttestationService.sigLe
        (AttestationService.generateResultDigest l).transaction_signatures ∧
      (AttestationService.generateResultDigest l).failures =
        List.insertionSort AttestationService.failureLe
          (l.sponsored_accounts.filterMap
            (AttestationService.rowFailure l.lifecycle_events)) ∧
      List.Sorted AttestationService.failureLe
        (AttestationService.generateResultDigest l).failures := by
  intro l
  refine ⟨?h1, ?h2, ?h3, ?h4, ?h5⟩
  · simp [AttestationService.generateResultDigest,
      AttestationService.buildDigest, AttestationService.foldl_totalLamports]
  · simp [AttestationService.generateResultDigest,
      AttestationService.buildDigest, AttestationService.foldl_signatures]
  · simp only [AttestationService.generateResultDigest,
      AttestationService.buildDigest]
    exact List.sorted_insertionSort AttestationService.sigLe _
  · simp [AttestationService.generateResultDigest,
      AttestationService.buildDigest, AttestationService.foldl_failures]
  · simp only [AttestationService.generateResultDigest,
      AttestationService.buildDigest]
    exact List.sorted_insertionSort AttestationService.failureLe _
